import Mathlib

/-!
Verification of the `utc` package (eluv-io/utc-go).

This file gives a shallow embedding of the package in Lean 4 and proves the
frozen claims about it.

Modelling conventions:
* A Go `time.Time` is modelled by `GoTime`: `wall` is the instant as
  nanoseconds since the internal epoch 0001-01-01T00:00:00 UTC (Go stores
  `sec : int64` seconds since that epoch plus `nsec ∈ [0,1e9)`; a single
  unbounded integer of nanoseconds is the same data, with `sec = wall / 1e9`
  and `nsec = wall % 1e9` in floor-division convention, which matches Go's
  representation for every representable instant).  `off` is the zone offset
  in seconds of the time's location (0 for UTC), and `monoR` is the optional
  monotonic-clock reading (Go's `ext` field when the `hasMonotonic` bit is
  set).  Go's wrap-around of `uint64` conversions is not modelled; it is
  unobservable for every instant within billions of years of the epoch, and
  all claims live in the year range [0, 9999].
* `/` and `%` on `Int` in Lean are `Int.ediv`/`Int.emod` (floor semantics for
  positive divisors), which coincide with Go's `uint64` arithmetic on the
  non-negative offset values Go's calendar code works on.
* The Gregorian calendar functions (`absDate`, `daysSinceEpoch`, `daysBefore`,
  `isLeap`, `daysIn`) are transliterated from Go's `time` package, which the
  repository delegates to for `Date`, `Clock`, `Year`, `time.Date` and
  parsing.
-/

/-- Alias for the built-in string type, used in signatures below where the
bare name `String` would be shadowed by `UTC.String` (the package's
formatting method keeps its Go name). -/
abbrev GoStr := String

namespace Utc

/-- Seconds from 0001-01-01T00:00:00Z to 1970-01-01T00:00:00Z (Go's
`unixToInternal`). -/
def unixToInternal : Int := 62135596800

/-- The `yearZeroOffsetSec` constant of the package: the year 0 has unix time
`-62167219200`. -/
def yearZeroOffsetSec : Int := 62167219200

def secondsPerDay : Int := 86400
def daysPer400Years : Int := 146097
def daysPer100Years : Int := 36524
def daysPer4Years : Int := 1461

/-- Go's `absoluteZeroYear`: the year of the absolute epoch used by the
calendar computations of the `time` package. -/
def absoluteZeroYear : Int := -292277022399

/-- Go's `isLeap`. Verdicts agree with Go's truncated `%` on every integer
because divisibility by a positive number is the same in both conventions. -/
def isLeap (year : Int) : Bool :=
  year % 4 == 0 && (year % 100 != 0 || year % 400 == 0)

/-- Go's `daysBefore` array: `daysBefore i` is the number of days in a
non-leap year before the end of month `i` (1-based), `daysBefore 0 = 0`. -/
def daysBefore (m : Int) : Int :=
  match m with
  | 1 => 31 | 2 => 59 | 3 => 90 | 4 => 120 | 5 => 151 | 6 => 181
  | 7 => 212 | 8 => 243 | 9 => 273 | 10 => 304 | 11 => 334 | 12 => 365
  | _ => 0

/-- Go's `daysIn(m, year)`: number of days of month `m` of `year`. -/
def daysIn (m year : Int) : Int :=
  if m == 2 && isLeap year then 29
  else daysBefore m - daysBefore (m - 1)

/-- Go's `daysSinceEpoch`: days from the absolute epoch (January 1 of
`absoluteZeroYear`) to January 1 of `year`. -/
def daysSinceEpoch (year : Int) : Int :=
  let y := year - absoluteZeroYear
  let n400 := y / 400
  let y := y - 400 * n400
  let d := daysPer400Years * n400
  let n100 := y / 100
  let y := y - 100 * n100
  let d := d + daysPer100Years * n100
  let n4 := y / 4
  let y := y - 4 * n4
  let d := d + daysPer4Years * n4
  d + 365 * y

/-- Seconds from the absolute epoch to the internal epoch (year 1). -/
def internalEpochAbsSec : Int := daysSinceEpoch 1 * secondsPerDay

/-- Go's `absDate(abs, full)` month/day extraction from the day-of-year `d`
of a non-leap calendar (after the leap-day adjustment): returns 1-based
month and day. -/
def monthDayFromYday (d : Int) : Int × Int :=
  let month := d / 31
  let endd := daysBefore (month + 1)
  let (month, begin) :=
    if d ≥ endd then (month + 1, endd) else (month, daysBefore month)
  (month + 1, d - begin + 1)

/-- The year/day-of-year part of Go's `absDate`: the cycle decomposition of
the day count `abs / secondsPerDay`. -/
def absYearYday (abs : Int) : Int × Int :=
  let d := abs / secondsPerDay
  -- Account for 400 year cycles.
  let n := d / daysPer400Years
  let y := 400 * n
  let d := d - daysPer400Years * n
  -- Cut off 100-year cycles.
  let n := d / daysPer100Years
  let n := n - n / 4
  let y := y + 100 * n
  let d := d - daysPer100Years * n
  -- Cut off 4-year cycles.
  let n := d / daysPer4Years
  let y := y + 4 * n
  let d := d - daysPer4Years * n
  -- Cut off years within a 4-year cycle.
  let n := d / 365
  let n := n - n / 4
  let y := y + n
  let d := d - 365 * n
  (y + absoluteZeroYear, d)

/-- Go's `absDate(abs, true)`: year, month, day and day-of-year from absolute
seconds. -/
def absDate (abs : Int) : Int × Int × Int × Int :=
  let (year, yday) := absYearYday abs
  let d := yday
  if isLeap year then
    if d > 31 + 29 - 1 then
      let (m, dy) := monthDayFromYday (d - 1)
      (year, m, dy, yday)
    else if d == 31 + 29 - 1 then
      (year, 2, 29, yday)
    else
      let (m, dy) := monthDayFromYday d
      (year, m, dy, yday)
  else
    let (m, dy) := monthDayFromYday d
    (year, m, dy, yday)

/-- Model of Go's `time.Time` (see the module docstring). -/
structure GoTime where
  wall : Int
  off : Int
  monoR : Option Int
deriving DecidableEq, Repr

/-- Go's `t.UTC()`: sets the location to UTC, which also strips the
monotonic reading. -/
def GoTime.utc (t : GoTime) : GoTime := { t with off := 0, monoR := none }

/-- Go's `t.stripMono()`. -/
def GoTime.stripMono (t : GoTime) : GoTime := { t with monoR := none }

/-- Internal seconds (since year 1) of the instant; Go's `t.sec()`. -/
def GoTime.sec (t : GoTime) : Int := t.wall / 1000000000

/-- Nanoseconds within the second; Go's `t.nsec()` (always in `[0, 1e9)`). -/
def GoTime.nsec (t : GoTime) : Int := t.wall % 1000000000

/-- Go's `t.abs()`: seconds since the absolute epoch, adjusted by the
location's offset. -/
def GoTime.abs (t : GoTime) : Int := t.sec + t.off + internalEpochAbsSec

/-- Go's `t.Unix()`. -/
def GoTime.unix (t : GoTime) : Int := t.sec - unixToInternal

/-- Go's `t.Date()`. -/
def GoTime.date (t : GoTime) : Int × Int × Int :=
  let (y, m, d, _) := absDate t.abs
  (y, m, d)

/-- Go's `t.Year()`. -/
def GoTime.year (t : GoTime) : Int := (absDate t.abs).1

/-- Go's `absClock`: hour, minute, second of the day. -/
def absClock (abs : Int) : Int × Int × Int :=
  let sec := abs % secondsPerDay
  let hour := sec / 3600
  let sec := sec - hour * 3600
  let minv := sec / 60
  let sec := sec - minv * 60
  (hour, minv, sec)

/-- Go's `t.Clock()`. -/
def GoTime.clock (t : GoTime) : Int × Int × Int := absClock t.abs

/-- Go's `t.IsZero()`. -/
def GoTime.isZero (t : GoTime) : Bool := t.wall == 0

/-- Go's `t.Truncate(d)` (strips the monotonic reading; floor-rounds the
instant to a multiple of `d` since the zero time). -/
def GoTime.truncate (t : GoTime) (d : Int) : GoTime :=
  let t := t.stripMono
  if d ≤ 0 then t else { t with wall := t.wall - t.wall % d }

/-- Go's `t.Round(d)` (strips the monotonic reading; rounds to the nearest
multiple of `d` since the zero time, half away from zero). -/
def GoTime.round (t : GoTime) (d : Int) : GoTime :=
  let t := t.stripMono
  if d ≤ 0 then t
  else
    let r := t.wall % d
    if r + r < d then { t with wall := t.wall - r }
    else { t with wall := t.wall + (d - r) }

/-- Go's `t.Add(d)`: advances the wall reading and, when present, the
monotonic reading. -/
def GoTime.add (t : GoTime) (d : Int) : GoTime :=
  { t with wall := t.wall + d, monoR := t.monoR.map (· + d) }

/-- Go's `t.Sub(u)`: monotonic difference when both readings are present,
wall difference otherwise. -/
def GoTime.sub (t u : GoTime) : Int :=
  match t.monoR, u.monoR with
  | some a, some b => a - b
  | _, _ => t.wall - u.wall

/-- Go's `t.After(u)`. -/
def GoTime.after (t u : GoTime) : Bool :=
  match t.monoR, u.monoR with
  | some a, some b => a > b
  | _, _ => t.wall > u.wall

/-- Go's `t.Before(u)`. -/
def GoTime.before (t u : GoTime) : Bool :=
  match t.monoR, u.monoR with
  | some a, some b => a < b
  | _, _ => t.wall < u.wall

/-- Go's `t.Equal(u)`. -/
def GoTime.equal (t u : GoTime) : Bool :=
  match t.monoR, u.monoR with
  | some a, some b => a == b
  | _, _ => t.wall == u.wall

/-- Go's `time.Date(year, month, day, hour, min, sec, nsec, zone)` for a
fixed-offset zone of `off` seconds, on arguments already in their calendar
ranges (the package and the parser only call it so; the field normalisation
Go performs on out-of-range arguments is the identity here). -/
def goDate (year month day hour minv sec nsec off : Int) : GoTime :=
  let d := daysSinceEpoch year
  let d := d + daysBefore (month - 1)
  let d := d + (if isLeap year && decide (3 ≤ month) then 1 else 0)
  let d := d + (day - 1)
  let absSec := d * secondsPerDay + hour * 3600 + minv * 60 + sec
  { wall := (absSec - internalEpochAbsSec - off) * 1000000000 + nsec,
    off := off, monoR := none }

/-- Go's `time.Unix(sec, nsec)` followed by nothing: the instant
`sec` seconds + `nsec` nanoseconds after the unix epoch.  The location of
`time.Unix` is the process-local zone; this model takes the local zone to be
UTC (offset 0), which no claim observes (every use in the package is
immediately followed by `.UTC()` or only the instant is read). -/
def goUnix (sec nsec : Int) : GoTime :=
  { wall := (sec + unixToInternal) * 1000000000 + nsec, off := 0, monoR := none }

/-- The `UTC` struct of the package: the embedded `time.Time` normalised to
the UTC zone, plus the original `time.Time` retained for measurements. -/
structure UTC where
  Time : GoTime
  mono : GoTime
deriving DecidableEq, Repr

/-- The package's `New`. -/
def New (t : GoTime) : UTC := { Time := t.utc, mono := t }

/-- The package's `Zero` (`UTC{}`). -/
def Zero : UTC := { Time := ⟨0, 0, none⟩, mono := ⟨0, 0, none⟩ }

/-- The package's `Min` (`New(time.Date(0, 1, 1, 0, 0, 0, 0, time.UTC))`). -/
def Min : UTC := New (goDate 0 1 1 0 0 0 0 0)

/-- The package's `Max`
(`New(time.Date(9999, 12, 31, 23, 59, 59, 999999999, time.UTC))`). -/
def Max : UTC := New (goDate 9999 12 31 23 59 59 999999999 0)

def UTC.StripMono (u : UTC) : UTC := New (u.Time.truncate 0)

def UTC.IsZero (u : UTC) : Bool := u.Time.isZero

def UTC.Year (u : UTC) : Int := u.Time.year

def UTC.Nanosecond (u : UTC) : Int := u.Time.nsec

def UTC.Unix (u : UTC) : Int := u.Time.unix

def UTC.UnixMilli (u : UTC) : Int :=
  u.Unix * 1000 + u.Nanosecond / 1000000

def UTC.Add (u : UTC) (d : Int) : UTC := New (u.mono.add d)

def UTC.Sub (u other : UTC) : Int := u.mono.sub other.mono

def UTC.Truncate (u : UTC) (d : Int) : UTC := New (u.mono.truncate d)

def UTC.Round (u : UTC) (d : Int) : UTC := New (u.mono.round d)

def UTC.After (u other : UTC) : Bool := u.mono.after other.mono

def UTC.Before (u other : UTC) : Bool := u.mono.before other.mono

def UTC.Equal (u other : UTC) : Bool := u.Time.equal other.Time

/-- Digit byte `'0' + x` of Go's `UTC.String`. -/
def digitChar (x : Int) : Char := Char.ofNat (48 + x.toNat)

/-- The package's `UTC.String`: fixed format `YYYY-MM-DDThh:mm:ss.mmmZ` with
years clamped to `[0, 9999]` for rendering. -/
def UTC.String (u : UTC) : String :=
  let year := (u.Time.date).1
  let month := (u.Time.date).2.1
  let day := (u.Time.date).2.2
  let hour := (u.Time.clock).1
  let minv := (u.Time.clock).2.1
  let sec := (u.Time.clock).2.2
  let millis := u.Time.nsec / 1000000
  let year := if year > 9999 then 9999 else if year < 0 then 0 else year
  String.mk
    [digitChar (year / 1000), digitChar (year / 100 % 10),
     digitChar (year / 10 % 10), digitChar (year % 10), '-',
     digitChar (month / 10), digitChar (month % 10), '-',
     digitChar (day / 10), digitChar (day % 10), 'T',
     digitChar (hour / 10), digitChar (hour % 10), ':',
     digitChar (minv / 10), digitChar (minv % 10), ':',
     digitChar (sec / 10), digitChar (sec % 10), '.',
     digitChar (millis / 100), digitChar (millis / 10 % 10),
     digitChar (millis % 10), 'Z']

-- Cross-checks against the repository's own tests.
example : (goDate 1 1 1 0 0 0 0 0) = ⟨0, 0, none⟩ := by decide
example : (goDate 1970 1 1 0 0 0 0 0).unix = 0 := by decide
example : Min.Time.unix = -yearZeroOffsetSec := by decide
example : Zero.String = "0001-01-01T00:00:00.000Z" := by decide
example : Min.String = "0000-01-01T00:00:00.000Z" := by decide
example : Max.String = "9999-12-31T23:59:59.999Z" := by decide
example : Zero.Year = 1 := by decide
example : Min.Year = 0 := by decide
example : Max.Year = 9999 := by decide
example : (New (goDate 2001 9 9 1 46 40 0 0)).UnixMilli = 1000000000000 := by decide
example : (New (goDate 2001 9 9 1 46 40 0 0)).String = "2001-09-09T01:46:40.000Z" := by decide

/-- Error kinds returned by the fallible operations (the payloads of the
`errors-go` values are irrelevant to the claims and not modelled). -/
inductive GoErr where
  | parseErr
  | rangeErr
  | decodeErr
  | jsonErr
deriving DecidableEq, Repr

/-- The package's `UTC.ValidateISO8601`: fails iff the year is outside
`[0, 9999]`. -/
def UTC.ValidateISO8601 (u : UTC) : Option GoErr :=
  if u.Year < 0 || u.Year ≥ 10000 then some .rangeErr else none

/-- The package's `UTC.MarshalText`: `nil` output for the zero value
(modelled as the empty string), otherwise validate then format. -/
def UTC.MarshalText (u : UTC) : Except GoErr GoStr :=
  if u.IsZero then .ok ""
  else
    match u.ValidateISO8601 with
    | some e => .error e
    | none => .ok u.String

/-- The package's `UTC.MarshalJSON`. -/
def UTC.MarshalJSON (u : UTC) : Except GoErr GoStr :=
  if u.IsZero then .ok "\"\""
  else
    match u.ValidateISO8601 with
    | some e => .error e
    | none => .ok ("\"" ++ u.String ++ "\"")

/-- The package's `UTC.MarshalBinary`: 0 bytes for the zero value, otherwise
validate, then 5 big-endian bytes of `uint64(Unix() + yearZeroOffsetSec)`
followed by 4 big-endian bytes of `uint32(Nanosecond())`. -/
def UTC.MarshalBinary (u : UTC) : Except GoErr (List Nat) :=
  if u.IsZero then .ok []
  else
    match u.ValidateISO8601 with
    | some e => .error e
    | none =>
      let sec : Nat := ((u.Unix + yearZeroOffsetSec) % (2 ^ 64)).toNat
      let nsec : Nat := (u.Nanosecond % (2 ^ 32)).toNat
      .ok [sec / 2 ^ 32 % 256, sec / 2 ^ 24 % 256, sec / 2 ^ 16 % 256,
           sec / 2 ^ 8 % 256, sec % 256,
           nsec / 2 ^ 24 % 256, nsec / 2 ^ 16 % 256, nsec / 2 ^ 8 % 256,
           nsec % 256]

/-- The package's `UTC.UnmarshalBinary` in state-passing form: returns the
new value of the receiver together with the error (`none` on success); on
error the receiver is returned unchanged, as in the Go code, which returns
before assigning any field. -/
def UTC.UnmarshalBinary (u : UTC) (data : List Nat) : UTC × Option GoErr :=
  match data with
  | [] => (Zero, none)
  | [b0, b1, b2, b3, b4, b5, b6, b7, b8] =>
    let sec : Int := (b4 : Int) + (b3 : Int) * 2 ^ 8 + (b2 : Int) * 2 ^ 16 +
      (b1 : Int) * 2 ^ 24 + (b0 : Int) * 2 ^ 32
    let nsec : Int := (b8 : Int) + (b7 : Int) * 2 ^ 8 + (b6 : Int) * 2 ^ 16 +
      (b5 : Int) * 2 ^ 24
    let t := (goUnix (sec - yearZeroOffsetSec) nsec).utc
    ({ Time := t, mono := t }, none)
  | _ => (u, some .decodeErr)

/-! The parser.  `FromString` tries Go layout strings in order; each of the
seven layouts of the package is transliterated into a direct
recursive-descent parser below (Go's layout interpreter specialised to the
layout at hand: `2006` = exactly four digits, `01`/`02`/`04`/`05` = exactly
two digits, `15` = one or two digits with range check, `.000` = comma or
period plus exactly three digits, `Z07:00` = `Z` or a signed `hh:mm`
offset, and the implicit fractional second Go accepts after the seconds
field when the layout carries no fraction).  Month and day range checks
follow Go's `Parse`. -/

/-- Numeric value of a digit character. -/
def digitVal (c : Char) : Nat := c.toNat - 48

/-- Go's `getnum`: a one or two digit number, two digits required when
`fixed`. -/
def getnum (fixed : Bool) : List Char → Option (Nat × List Char)
  | c1 :: c2 :: rest =>
    if c1.isDigit then
      if c2.isDigit then some (10 * digitVal c1 + digitVal c2, rest)
      else if fixed then none
      else some (digitVal c1, c2 :: rest)
    else none
  | [c1] => if c1.isDigit && !fixed then some (digitVal c1, []) else none
  | [] => none

/-- Go's `stdLongYear`: exactly four digits. -/
def getnum4 : List Char → Option (Nat × List Char)
  | c1 :: c2 :: c3 :: c4 :: rest =>
    if c1.isDigit && c2.isDigit && c3.isDigit && c4.isDigit then
      some (1000 * digitVal c1 + 100 * digitVal c2 + 10 * digitVal c3 +
        digitVal c4, rest)
    else none
  | _ => none

/-- Consume one expected literal character. -/
def expectCh (c : Char) : List Char → Option (List Char)
  | x :: rest => if x = c then some rest else none
  | [] => none

/-- Layout fraction `.000`: Go's `parseNanoseconds(value, 4)` — a comma or
period followed by exactly three digits, scaled to nanoseconds. -/
def parseFrac3 : List Char → Option (Nat × List Char)
  | c :: c1 :: c2 :: c3 :: rest =>
    if (c = '.' || c = ',') && c1.isDigit && c2.isDigit && c3.isDigit then
      some ((100 * digitVal c1 + 10 * digitVal c2 + digitVal c3) * 1000000,
        rest)
    else none
  | _ => none

/-- Go's `parseNanoseconds` scaling of a run of fraction digits (at most
nine digits are significant). -/
def scaleNanos (ds : List Char) : Nat :=
  (ds.take 9).foldl (fun a c => 10 * a + digitVal c) 0 *
    10 ^ (9 - min ds.length 9)

/-- The implicit fractional second Go's `Parse` accepts right after the
seconds field when the layout has no fraction. -/
def parseFracImplicit (cs : List Char) : Nat × List Char :=
  match cs with
  | c :: c1 :: rest =>
    if (c = '.' || c = ',') && c1.isDigit then
      let ds := (c1 :: rest).takeWhile Char.isDigit
      ((scaleNanos ds), (c1 :: rest).dropWhile Char.isDigit)
    else (0, cs)
  | _ => (0, cs)

/-- Layout `Z07:00` (`stdISO8601ColonTZ`): `Z` for UTC or a signed `hh:mm`
offset, returned in seconds. -/
def parseZone (cs : List Char) : Option (Int × List Char) :=
  match cs with
  | 'Z' :: rest => some (0, rest)
  | s :: h1 :: h2 :: ':' :: m1 :: m2 :: rest =>
    if (s = '+' || s = '-') && h1.isDigit && h2.isDigit && m1.isDigit &&
        m2.isDigit then
      let off : Int :=
        (((10 * digitVal h1 + digitVal h2) * 60 +
          (10 * digitVal m1 + digitVal m2)) * 60 : Nat)
      some (if s = '-' then -off else off, rest)
    else none
  | _ => none

/-- Shape of one of the package's layout strings. -/
structure LayoutSpec where
  hasTime : Bool
  hasSec : Bool
  frac3 : Bool
  hasZone : Bool
deriving DecidableEq, Repr

/-- One layout of the package, as a parser (see above). -/
def parseLayout (L : LayoutSpec) (s0 : List Char) : Option GoTime := do
  let (year, s1) ← getnum4 s0
  let s2 ← expectCh '-' s1
  let (month, s3) ← getnum true s2
  let s4 ← expectCh '-' s3
  let (day, s5) ← getnum true s4
  let (hour, minv, secv, nsec, s6) ←
    (if L.hasTime then do
      let sa ← expectCh 'T' s5
      let (hour, sb) ← getnum false sa
      if 24 ≤ hour then none
      else do
        let sc ← expectCh ':' sb
        let (minv, sd) ← getnum true sc
        if 60 ≤ minv then none
        else
          if L.hasSec then do
            let se ← expectCh ':' sd
            let (secv, sf) ← getnum true se
            if 60 ≤ secv then none
            else
              if L.frac3 then do
                let (ns, sg) ← parseFrac3 sf
                pure (hour, minv, secv, ns, sg)
              else
                let (ns, sg) := parseFracImplicit sf
                pure (hour, minv, secv, ns, sg)
          else pure (hour, minv, 0, 0, sd)
    else pure (0, 0, 0, 0, s5) :
      Option (Nat × Nat × Nat × Nat × List Char))
  let (off, s7) ← (if L.hasZone then parseZone s6 else some ((0 : Int), s6))
  if s7 ≠ [] then none
  else if month < 1 || 12 < month then none
  else if day < 1 || daysIn (month : Int) (year : Int) < (day : Int) then none
  else
    pure (goDate (year : Int) (month : Int) (day : Int) (hour : Int)
      (minv : Int) (secv : Int) (nsec : Int) off)

/-- The seven layouts of the package's `formats` table, in order:
`ISO8601`, `ISO8601DateOnlyNoTZ`, `ISO8601DateOnly`, `ISO8601NoMilli`,
`ISO8601NoSec`, `ISO8601NoMilliNoTZ`, `ISO8601NoSecNoTZ`. -/
def formats : List LayoutSpec :=
  [⟨true, true, true, true⟩, ⟨false, false, false, false⟩,
   ⟨false, false, false, true⟩, ⟨true, true, false, true⟩,
   ⟨true, false, false, true⟩, ⟨true, true, false, false⟩,
   ⟨true, false, false, false⟩]

/-- First successful layout wins, as in the package's `FromString` loop. -/
def tryFormats : List LayoutSpec → List Char → Option GoTime
  | [], _ => none
  | L :: Ls, cs =>
    match parseLayout L cs with
    | some t => some t
    | none => tryFormats Ls cs

/-- The package's `FromString`. -/
def FromString (s : GoStr) : Except GoErr UTC :=
  if s = "" then .ok Zero
  else
    match tryFormats formats s.data with
    | some t => .ok (New t.utc)
    | none => .error .parseErr

/-- The package's `UTC.UnmarshalText` in state-passing form (on error the
Go code returns before assigning the receiver's fields). -/
def UTC.UnmarshalText (u : UTC) (data : GoStr) : UTC × Option GoErr :=
  match FromString data with
  | .error e => (u, some e)
  | .ok t => ({ Time := t.Time, mono := t.Time }, none)

/-- Decoding of a JSON string literal body (modelled subset of
`encoding/json`: escape sequences are rejected rather than decoded; every
string the package itself emits contains neither `"` nor `\`, and the
claims about failures depend only on which branch runs, not on the exact
failure set). -/
def jsonStringRest : List Char → Option (List Char)
  | ['"'] => some []
  | c :: rest =>
    if c = '"' || c = '\\' then none
    else (jsonStringRest rest).map (c :: ·)
  | [] => none

/-- Go's `json.Unmarshal(data, &s)` for a string target (modelled subset,
see `jsonStringRest`). -/
def jsonUnquote (data : GoStr) : Option GoStr :=
  match data.data with
  | '"' :: rest => (jsonStringRest rest).map String.mk
  | _ => none

/-- The package's `UTC.UnmarshalJSON` in state-passing form. -/
def UTC.UnmarshalJSON (u : UTC) (data : GoStr) : UTC × Option GoErr :=
  match jsonUnquote data with
  | none => (u, some .jsonErr)
  | some s => u.UnmarshalText s

/-- The package's `Unix(sec, nsec)` constructor. -/
def Unix (sec nsec : Int) : UTC := New (goUnix sec nsec)

/-- The package's `UnixMilli(millis)` constructor.  Go divides with
truncated division; quotient and remainder are recombined by `time.Unix`,
so the instant agrees with the floored pair used here. -/
def UnixMilli (millis : Int) : UTC :=
  New (goUnix (Int.tdiv millis 1000) (1000000 * Int.tmod millis 1000))

deriving instance DecidableEq for Except

/-! The clock layer.  The package's only shared mutable state is the global
clock slot (`atomicClock`), the `nowFn` variable, and the two atomic fields
of each `TestClock`.  The claims about this layer are sequential
(install/read/notify orderings), so the state is modelled explicitly and
passed through each operation; reads of the real system clock consume
successive samples of an ambient sample stream `sys`. -/

/-- One reading of the operating system clock, as sampled by Go's
`time.Now()`: the wall instant (nanoseconds since year 1 UTC), the local
zone offset, and the monotonic reading (always present for genuine
`time.Now()` values). -/
structure SysSample where
  wall : Int
  off : Int
  mono : Int
deriving DecidableEq, Repr

/-- State of one `TestClock` (file `test_clock.go`): the two policy flags,
the contents of the `now` atomic pointer (`none` = nil), and the `isMock`
atomic flag. -/
structure TCState where
  mono : Bool
  millisPrecision : Bool
  now : Option UTC
  isMock : Bool
deriving DecidableEq, Repr

/-- A value stored in the global clock slot: either a `ClockFn` wrapping the
default `now` function (stored by `ResetNow`/`setNowFn`), or a `TestClock`,
identified by the index of its shared atomic state.  (`MockNowFn` can store
an arbitrary closure; no claim depends on it.) -/
inductive SlotClock where
  | fn
  | test (id : Nat)
deriving DecidableEq, Repr

/-- The process state: the sample stream of the real clock together with
the number of samples consumed so far, the `nowFn` variable (`true` iff it
holds `nowFnClock`), the `atomicClock` slot, and the states of all
`TestClock`s. -/
structure World where
  sys : Nat → SysSample
  tick : Nat
  nowFnIsClock : Bool
  slot : Option SlotClock
  tcs : Nat → TCState

/-- Update the state of `TestClock` `id`. -/
def World.updTC (w : World) (id : Nat) (f : TCState → TCState) : World :=
  { w with tcs := fun j => if j = id then f (w.tcs j) else w.tcs j }

/-- Go's `time.Now()`: consumes the next sample of the real clock. -/
def sysNow (w : World) : GoTime × World :=
  let s := w.sys w.tick
  (⟨s.wall, s.off, some s.mono⟩, { w with tick := w.tick + 1 })

/-- The package's `now()` (`New(time.Now())`). -/
def nowDefault (w : World) : UTC × World :=
  let (t, w') := sysNow w
  (New t, w')

/-- The `wallClock{}` strategy of `clock.go` (`WallClock()`), optionally
with millisecond rounding (`WallClockMs()`). -/
def wallClockNow (ms : Bool) (w : World) : UTC × World :=
  let (n, w') := nowDefault w
  let ret := New (n.Time.truncate 0)
  (if ms then ret.Round 1000000 else ret, w')

/-- The `mono{}` strategy of `clock.go` (`Mono()`). -/
def monoNow (w : World) : UTC × World := nowDefault w

/-- The `wc` helper of `TestClock`: the policy clock of the instance. -/
def TCState.wc (c : TCState) (w : World) : UTC × World :=
  if !c.mono then
    if c.millisPrecision then wallClockNow true w else wallClockNow false w
  else monoNow w

/-- `TestClock.Now` of clock `id`: the recorded instant unless it is absent
or `Zero`, in which case the policy clock is read. -/
def TestClock.Now (id : Nat) (w : World) : UTC × World :=
  let c := w.tcs id
  match c.now with
  | none => c.wc w
  | some n => if n = Zero then c.wc w else (n, w)

/-- `TestClock.Get`. -/
def TestClock.Get (id : Nat) (w : World) : UTC :=
  match (w.tcs id).now with
  | none => Zero
  | some n => n

/-- The pure core of `TestClock.set`: the new pointer contents and the
returned previous value. -/
def TCState.set (c : TCState) (u : UTC) : UTC × TCState :=
  let n : Option UTC :=
    if u = Zero then none
    else
      some (if !c.mono then
              (if c.millisPrecision then (u.StripMono).Round 1000000
               else u.StripMono)
            else u)
  (match c.now with
   | none => Zero
   | some r => r,
   { c with now := n })

/-- `TestClock.Set` of clock `id` (the package's `Set` calls `set`). -/
def TestClock.Set (id : Nat) (u : UTC) (w : World) : UTC × World :=
  ((w.tcs id).set u).1 |> fun ret => (ret, w.updTC id (fun c => (c.set u).2))

/-- `TestClock.Unset` (`c.set(Zero)`). -/
def TestClock.Unset (id : Nat) (w : World) : UTC × World :=
  TestClock.Set id Zero w

/-- `TestClock.Add`: read `Now`, add the duration, store through `Set`,
return the sum. -/
def TestClock.Add (id : Nat) (d : Int) (w : World) : UTC × World :=
  let (n, w1) := TestClock.Now id w
  let ret := n.Add d
  let w2 := (TestClock.Set id ret w1).2
  (ret, w2)

/-- `TestClock.IsMock`. -/
def TestClock.IsMock (id : Nat) (w : World) : Bool := (w.tcs id).isMock

/-- `getClock` of `now.go` (non-race build): the stored clock, or a
`ClockFn(now)` when the slot is empty.  (The nil-clocker guard of the Go
code is folded into the `Option`: `setClock` never stores a nil `Clock`.) -/
def getClock (w : World) : SlotClock := w.slot.getD .fn

/-- Reading the current time through a `Clock` value. -/
def clockNow : SlotClock → World → UTC × World
  | .fn => nowDefault
  | .test id => TestClock.Now id

/-- `allowClock`: switches `nowFn` to `nowFnClock` (idempotent; the
function-identity fast path of the Go code has no further observable
effect). -/
def allowClock (w : World) : World := { w with nowFnIsClock := true }

/-- `setClock`: allow clock use, read the previously effective clock, store
the new one, then notify the previous one through `unMocked` if it is a
`TestClock`. -/
def setClock (c : SlotClock) (w : World) : World :=
  let w1 := allowClock w
  let old := getClock w1
  let w2 := { w1 with slot := some c }
  match old with
  | .test id => w2.updTC id (fun s => { s with isMock := false })
  | .fn => w2

/-- The global accessor `Now()` (`nowFn()`): the default path until a clock
was ever installed, then a dispatch through the slot. -/
def Now (w : World) : UTC × World :=
  if w.nowFnIsClock then clockNow (getClock w) w else nowDefault w

/-- `ResetNow` (`setNowFn(now)`, i.e. `setClock(ClockFn(now))`). -/
def ResetNow (w : World) : World := setClock .fn w

/-- `TestClock.MockNow`: install this clock globally, then raise its
`isMock` flag. -/
def TestClock.MockNow (id : Nat) (w : World) : World :=
  (setClock (.test id) w).updTC id (fun s => { s with isMock := true })

/-- `TestClock.UnmockNow` (calls `ResetNow`). -/
def TestClock.UnmockNow (_id : Nat) (w : World) : World := ResetNow w

-- Cross-checks against the repository's own tests (`TestFromString`,
-- `TestJSON`, `TestMarshalBinary`).
example : FromString "2001-09-09T01:46:40.000Z" =
    .ok (New (goDate 2001 9 9 1 46 40 0 0)) := by decide
example : FromString "" = .ok Zero := by decide
example : (FromString "2001-09-09 01:46").isOk = false := by decide
example : (FromString "blub").isOk = false := by decide
example : FromString "2001-09-09Z" = .ok (New (goDate 2001 9 9 0 0 0 0 0)) := by decide
example : FromString "2001-09-09" = .ok (New (goDate 2001 9 9 0 0 0 0 0)) := by decide
example : FromString "2001-09-09T01:46:40Z" = .ok (New (goDate 2001 9 9 1 46 40 0 0)) := by decide
example : FromString "2001-09-09T02:46:40+01:00" = .ok (New (goDate 2001 9 9 1 46 40 0 0)) := by decide
example : FromString "2001-09-09T01:46" = .ok (New (goDate 2001 9 9 1 46 0 0 0)) := by decide
example : FromString "2001-09-09-01:00" = .ok (New (goDate 2001 9 9 1 0 0 0 0)) := by decide
example : FromString "0001-01-01T00:00:00.000000000" = .ok Zero := by decide
example : FromString "9999-12-31T23:59:59.999999999" =
    .ok (New (goDate 9999 12 31 23 59 59 999999999 0)) := by decide
example : Zero.MarshalJSON = .ok "\"\"" := by decide
example : (New (goDate 2001 9 9 1 46 40 0 0)).MarshalJSON =
    .ok "\"2001-09-09T01:46:40.000Z\"" := by decide
example : Zero.MarshalBinary = .ok [] := by decide
example :
    (Zero.UnmarshalBinary [0, 0, 0]).2.isSome = true := by decide
example :
    ((New (goDate 2001 9 9 1 46 40 0 0)).MarshalBinary).toOption.map
      (fun b => ((Zero.UnmarshalBinary b).1 : UTC).Time.wall) =
    some (New (goDate 2001 9 9 1 46 40 0 0)).Time.wall := by decide

/-! Calendar lemmas.  The year extraction of `absYearYday` is characterised
against `daysSinceEpoch`; the month/day extraction is checked exhaustively
over a year; together they give the round trip `goDate ∘ absDate = id` on
instants, which drives the text/binary codec claims. -/

theorem daysSinceEpoch_succ (y : Int) (h : absoluteZeroYear ≤ y) :
    daysSinceEpoch (y + 1) =
      daysSinceEpoch y + (if isLeap y then 366 else 365) := by
  simp only [daysSinceEpoch, absoluteZeroYear, daysPer400Years,
    daysPer100Years, daysPer4Years] at *
  cases hL : isLeap y <;>
    simp only [isLeap, Bool.and_eq_true, Bool.or_eq_true, beq_iff_eq,
      bne_iff_ne, ne_eq, Bool.and_eq_false_iff, Bool.or_eq_false_iff,
      Bool.not_eq_true, beq_eq_false_iff_ne, bne_eq_false_iff_eq] at hL <;>
    simp only [Bool.false_eq_true, if_false, if_true] <;>
    omega

theorem daysSinceEpoch_mono (y1 y2 : Int) (h0 : absoluteZeroYear ≤ y1)
    (h : y1 ≤ y2) : daysSinceEpoch y1 ≤ daysSinceEpoch y2 := by
  simp only [daysSinceEpoch, absoluteZeroYear, daysPer400Years,
    daysPer100Years, daysPer4Years] at *
  omega

theorem cycleSpec (D n400 dd n100 q100 d2 n4 d3 n1 q1 d4 Y : Int)
    (h0 : 0 ≤ D)
    (h1 : n400 = D / 146097) (h2 : dd = D - 146097 * n400)
    (h3 : n100 = dd / 36524) (h4 : q100 = n100 / 4)
    (h5 : d2 = dd - 36524 * (n100 - q100))
    (h6 : n4 = d2 / 1461) (h7 : d3 = d2 - 1461 * n4)
    (h8 : n1 = d3 / 365) (h9 : q1 = n1 / 4)
    (h10 : d4 = d3 - 365 * (n1 - q1))
    (hY : Y = 400 * n400 + 100 * (n100 - q100) + 4 * n4 + (n1 - q1) +
      absoluteZeroYear) :
    absoluteZeroYear ≤ Y ∧ daysSinceEpoch Y + d4 = D ∧ 0 ≤ d4 ∧
      d4 < (if isLeap Y then 366 else 365) := by
  simp only [absoluteZeroYear] at hY ⊢
  have hb1 : 0 ≤ dd ∧ dd ≤ 146096 := by omega
  have hb2 : 0 ≤ n100 ∧ n100 ≤ 4 := by omega
  have hb3 : 0 ≤ d2 ∧ d2 ≤ 36524 := by omega
  have hb4 : 0 ≤ n4 ∧ n4 ≤ 24 := by omega
  have hb5 : 0 ≤ d3 ∧ d3 ≤ 1460 := by omega
  have hb6 : 0 ≤ n1 ∧ n1 ≤ 4 := by omega
  have hr1 : 0 ≤ n100 - q100 ∧ n100 - q100 ≤ 3 := by omega
  have hr2 : 0 ≤ n1 - q1 ∧ n1 - q1 ≤ 3 := by omega
  have hdec : 146097 * n400 + 36524 * (n100 - q100) + 1461 * n4 +
      365 * (n1 - q1) + d4 = D ∧ 0 ≤ d4 ∧ d4 ≤ 365 ∧
      (d4 = 365 → n1 - q1 = 3 ∧ (n4 = 24 → n100 - q100 = 3)) := by
    omega
  have hn400 : 0 ≤ n400 := by omega
  have hA : daysSinceEpoch Y =
      146097 * n400 + 36524 * (n100 - q100) + 1461 * n4 +
        365 * (n1 - q1) := by
    clear h0 h1 h2 h3 h4 h5 h6 h7 h8 h9 h10 hdec hb1 hb2 hb3 hb5 hb6
    rw [hY]
    simp only [daysSinceEpoch, absoluteZeroYear, daysPer400Years,
      daysPer100Years, daysPer4Years]
    omega
  have hB1 : Y % 4 = 0 ↔ n1 - q1 = 3 := by
    clear h0 h1 h2 h3 h4 h5 h6 h7 h8 h9 h10 hdec hb1 hb2 hb3 hb5 hb6
    rw [hY]; omega
  have hB2 : Y % 100 = 0 ↔ 4 * n4 + (n1 - q1) = 99 := by
    clear h0 h1 h2 h3 h4 h5 h6 h7 h8 h9 h10 hdec hb1 hb2 hb3 hb5 hb6
    rw [hY]; omega
  have hB3 : Y % 400 = 0 ↔ 100 * (n100 - q100) + 4 * n4 + (n1 - q1) = 399 := by
    clear h0 h1 h2 h3 h4 h5 h6 h7 h8 h9 h10 hdec hb1 hb2 hb3 hb5 hb6
    rw [hY]; omega
  clear h0 h1 h2 h3 h4 h5 h6 h7 h8 h9 h10 hb1 hb2 hb3 hb5 hb6
  refine ⟨by omega, by rw [hA]; omega, by omega, ?_⟩
  cases hL : isLeap Y <;>
    simp only [isLeap, Bool.and_eq_true, Bool.or_eq_true, beq_iff_eq,
      bne_iff_ne, ne_eq, Bool.and_eq_false_iff, Bool.or_eq_false_iff,
      Bool.not_eq_true, beq_eq_false_iff_ne, bne_eq_false_iff_eq] at hL <;>
    simp only [Bool.false_eq_true, if_false, if_true] <;>
    omega

set_option maxRecDepth 4000 in
theorem monthDayFromYday_spec :
    ∀ yd : Nat, yd < 365 →
      1 ≤ (monthDayFromYday (yd : Int)).1 ∧
      (monthDayFromYday (yd : Int)).1 ≤ 12 ∧
      1 ≤ (monthDayFromYday (yd : Int)).2 ∧
      (monthDayFromYday (yd : Int)).2 ≤
        daysBefore (monthDayFromYday (yd : Int)).1 -
          daysBefore ((monthDayFromYday (yd : Int)).1 - 1) ∧
      daysBefore ((monthDayFromYday (yd : Int)).1 - 1) +
        ((monthDayFromYday (yd : Int)).2 - 1) = (yd : Int) ∧
      (59 ≤ yd → 3 ≤ (monthDayFromYday (yd : Int)).1) ∧
      (yd < 59 → (monthDayFromYday (yd : Int)).1 ≤ 2) := by
  decide

theorem absYearYday_spec (a : Int) (h : 0 ≤ a) :
    absoluteZeroYear ≤ (absYearYday a).1 ∧
    daysSinceEpoch (absYearYday a).1 + (absYearYday a).2 = a / secondsPerDay ∧
    0 ≤ (absYearYday a).2 ∧
    (absYearYday a).2 < (if isLeap (absYearYday a).1 then 366 else 365) :=
  cycleSpec (a / secondsPerDay) _ _ _ _ _ _ _ _ _
    (absYearYday a).2 (absYearYday a).1
    (Int.ediv_nonneg h (by norm_num [secondsPerDay]))
    rfl rfl rfl rfl rfl rfl rfl rfl rfl rfl rfl

theorem monthDayFromYday_spec_int (yd : Int) (h0 : 0 ≤ yd) (h : yd < 365) :
    1 ≤ (monthDayFromYday yd).1 ∧
    (monthDayFromYday yd).1 ≤ 12 ∧
    1 ≤ (monthDayFromYday yd).2 ∧
    (monthDayFromYday yd).2 ≤
      daysBefore (monthDayFromYday yd).1 -
        daysBefore ((monthDayFromYday yd).1 - 1) ∧
    daysBefore ((monthDayFromYday yd).1 - 1) +
      ((monthDayFromYday yd).2 - 1) = yd ∧
    (59 ≤ yd → 3 ≤ (monthDayFromYday yd).1) ∧
    (yd < 59 → (monthDayFromYday yd).1 ≤ 2) := by
  have hn : ((yd.toNat : Nat) : Int) = yd := Int.toNat_of_nonneg h0
  have hs := monthDayFromYday_spec yd.toNat (by omega)
  rw [hn] at hs
  obtain ⟨a1, a2, a3, a4, a5, a6, a7⟩ := hs
  exact ⟨a1, a2, a3, a4, a5, fun h59 => a6 (by omega), fun h59 => a7 (by omega)⟩

theorem absDate_spec (a : Int) (h : 0 ≤ a) :
    absoluteZeroYear ≤ (absDate a).1 ∧
    (absDate a).1 = (absYearYday a).1 ∧
    1 ≤ (absDate a).2.1 ∧ (absDate a).2.1 ≤ 12 ∧
    1 ≤ (absDate a).2.2.1 ∧
    (absDate a).2.2.1 ≤ daysIn (absDate a).2.1 (absDate a).1 ∧
    daysSinceEpoch (absDate a).1 + daysBefore ((absDate a).2.1 - 1) +
      (if isLeap (absDate a).1 && decide (3 ≤ (absDate a).2.1) then 1 else 0) +
      ((absDate a).2.2.1 - 1) = a / secondsPerDay := by
  obtain ⟨hA1, hA2, hA3, hA4⟩ := absYearYday_spec a h
  set Y := (absYearYday a).1 with hYdef
  set R := (absYearYday a).2 with hRdef
  have habs : absDate a =
      (if isLeap Y then
        if R > 31 + 29 - 1 then
          ((Y, (monthDayFromYday (R - 1)).1, (monthDayFromYday (R - 1)).2,
            R) : Int × Int × Int × Int)
        else if R == 31 + 29 - 1 then (Y, 2, 29, R)
        else (Y, (monthDayFromYday R).1, (monthDayFromYday R).2, R)
      else (Y, (monthDayFromYday R).1, (monthDayFromYday R).2, R)) := rfl
  rw [habs]
  by_cases hL : isLeap Y = true
  · rw [if_pos hL] at *
    by_cases h59 : R > 31 + 29 - 1
    · rw [if_pos h59]
      dsimp only
      obtain ⟨b1, b2, b3, b4, b5, b6, b7⟩ :=
        monthDayFromYday_spec_int (R - 1) (by omega) (by omega)
      have hm3 : 3 ≤ (monthDayFromYday (R - 1)).1 := b6 (by omega)
      refine ⟨hA1, rfl, b1, b2, b3, ?_, ?_⟩
      · simp only [daysIn]
        split
        · next hcond =>
          simp only [Bool.and_eq_true, beq_iff_eq] at hcond
          omega
        · exact b4
      · split
        · next => omega
        · next hcond =>
          rw [hL] at hcond
          simp only [Bool.true_and, decide_eq_true_eq] at hcond
          omega
    · rw [if_neg h59]
      by_cases h59e : R = 31 + 29 - 1
      · rw [if_pos (by simp [h59e])]
        dsimp only
        refine ⟨hA1, rfl, by norm_num, by norm_num, by norm_num, ?_, ?_⟩
        · simp only [daysIn]
          split
          · norm_num
          · next hcond => simp [hL] at hcond
        · have hdb : daysBefore (2 - 1) = 31 := by decide
          split
          · next hcond => rw [hL] at hcond; simp at hcond
          · rw [hdb]; omega
      · rw [if_neg (by simpa using h59e)]
        dsimp only
        obtain ⟨b1, b2, b3, b4, b5, b6, b7⟩ :=
          monthDayFromYday_spec_int R (by omega) (by omega)
        have hm2 : (monthDayFromYday R).1 ≤ 2 := b7 (by omega)
        refine ⟨hA1, rfl, b1, b2, b3, ?_, ?_⟩
        · simp only [daysIn]
          split
          · next hcond =>
            simp only [Bool.and_eq_true, beq_iff_eq] at hcond
            have hdb : daysBefore 2 - daysBefore (2 - 1) = 28 := by decide
            rw [hcond.1] at b4
            omega
          · exact b4
        · split
          · next hcond =>
            simp only [Bool.and_eq_true, decide_eq_true_eq] at hcond
            omega
          · omega
  · have hL' : isLeap Y = false := by simpa using hL
    rw [if_neg hL]
    dsimp only
    simp only [hL', Bool.false_eq_true, if_false] at hA4
    obtain ⟨b1, b2, b3, b4, b5, b6, b7⟩ :=
      monthDayFromYday_spec_int R (by omega) (by omega)
    refine ⟨hA1, rfl, b1, b2, b3, ?_, ?_⟩
    · simp only [daysIn]
      split
      · next hcond =>
        simp only [Bool.and_eq_true, beq_iff_eq] at hcond
        rw [hL'] at hcond
        exact absurd hcond.2 (by simp)
      · exact b4
    · split
      · next hcond =>
        rw [hL'] at hcond
        simp at hcond
      · omega

theorem timeFields_spec (t : GoTime) (hoff : t.off = 0)
    (hlo : Min.Time.wall ≤ t.wall) (hhi : t.wall ≤ Max.Time.wall) :
    0 ≤ (absDate t.abs).1 ∧ (absDate t.abs).1 ≤ 9999 ∧
    1 ≤ (absDate t.abs).2.1 ∧ (absDate t.abs).2.1 ≤ 12 ∧
    1 ≤ (absDate t.abs).2.2.1 ∧
    (absDate t.abs).2.2.1 ≤ daysIn (absDate t.abs).2.1 (absDate t.abs).1 ∧
    0 ≤ (absClock t.abs).1 ∧ (absClock t.abs).1 < 24 ∧
    0 ≤ (absClock t.abs).2.1 ∧ (absClock t.abs).2.1 < 60 ∧
    0 ≤ (absClock t.abs).2.2 ∧ (absClock t.abs).2.2 < 60 ∧
    0 ≤ t.nsec ∧ t.nsec < 1000000000 ∧
    (goDate (absDate t.abs).1 (absDate t.abs).2.1 (absDate t.abs).2.2.1
      (absClock t.abs).1 (absClock t.abs).2.1 (absClock t.abs).2.2
      (t.nsec / 1000000 * 1000000) 0).wall = t.wall - t.wall % 1000000 := by
  have hmin : Min.Time.wall = -31622400000000000 := by decide
  have hmax : Max.Time.wall = 315537897599999999999 := by decide
  have hiec : internalEpochAbsSec = 9223371966579724800 := by decide
  rw [hmin] at hlo
  rw [hmax] at hhi
  have habs : t.abs = t.wall / 1000000000 + 9223371966579724800 := by
    simp only [GoTime.abs, GoTime.sec, hoff, hiec]; omega
  have habs0 : 0 ≤ t.abs := by omega
  obtain ⟨c1, c2, c3, c4, c5, c6, c7⟩ := absDate_spec t.abs habs0
  obtain ⟨y1, y2, y3, y4⟩ := absYearYday_spec t.abs habs0
  have hdse0 : daysSinceEpoch 0 = 106751990353566 := by decide
  have hdse10000 : daysSinceEpoch 10000 = 106751994005991 := by decide
  have hDlo : 106751990353566 ≤ t.abs / secondsPerDay := by
    simp only [secondsPerDay]; omega
  have hDhi : t.abs / secondsPerDay < 106751994005991 := by
    simp only [secondsPerDay]; omega
  set Y := (absYearYday t.abs).1 with hYdef
  have hsucc := daysSinceEpoch_succ Y y1
  set W := (if isLeap Y then (366 : Int) else 365) with hWdef
  have hWb : W = 366 ∨ W = 365 := by
    rw [hWdef]; split
    · exact Or.inl rfl
    · exact Or.inr rfl
  have hyl : 0 ≤ Y := by
    by_contra hneg
    push_neg at hneg
    have hm := daysSinceEpoch_mono (Y + 1) 0 (by omega) (by omega)
    omega
  have hyh : Y ≤ 9999 := by
    by_contra hneg
    push_neg at hneg
    have hm := daysSinceEpoch_mono 10000 Y
      (by simp only [absoluteZeroYear]; omega) (by omega)
    omega
  simp only [secondsPerDay] at c7 y2
  refine ⟨by omega, by omega, c3, c4, c5, c6, ?_, ?_, ?_, ?_, ?_, ?_, ?_, ?_,
    ?_⟩ <;>
    simp only [absClock, goDate, GoTime.nsec, secondsPerDay] <;>
    omega

/-! Digit rendering/parsing lemmas: parsing the characters `UTC.String`
emits recovers the numeric fields. -/

theorem digitChar_facts : ∀ k : Nat, k < 10 →
    (Char.ofNat (48 + k)).isDigit = true ∧
    (Char.ofNat (48 + k)).toNat = 48 + k ∧
    Char.ofNat (48 + k) ≠ '"' ∧ Char.ofNat (48 + k) ≠ '\\' := by decide

theorem digitChar_spec (x : Int) (h0 : 0 ≤ x) (h : x < 10) :
    (digitChar x).isDigit = true ∧ (digitVal (digitChar x) : Int) = x ∧
    digitChar x ≠ '"' ∧ digitChar x ≠ '\\' := by
  obtain ⟨f1, f2, f3, f4⟩ := digitChar_facts x.toNat (by omega)
  unfold digitChar digitVal
  refine ⟨f1, ?_, f3, f4⟩
  rw [f2]
  omega

theorem expectCh_cons (c : Char) (rest : List Char) :
    expectCh c (c :: rest) = some rest := by
  simp [expectCh]

theorem getnum4_render (y : Int) (h0 : 0 ≤ y) (h : y < 10000)
    (rest : List Char) :
    getnum4 (digitChar (y / 1000) :: digitChar (y / 100 % 10) ::
      digitChar (y / 10 % 10) :: digitChar (y % 10) :: rest) =
      some (y.toNat, rest) := by
  obtain ⟨i1, v1, -, -⟩ := digitChar_spec (y / 1000) (by omega) (by omega)
  obtain ⟨i2, v2, -, -⟩ := digitChar_spec (y / 100 % 10) (by omega) (by omega)
  obtain ⟨i3, v3, -, -⟩ := digitChar_spec (y / 10 % 10) (by omega) (by omega)
  obtain ⟨i4, v4, -, -⟩ := digitChar_spec (y % 10) (by omega) (by omega)
  simp only [getnum4, i1, i2, i3, i4, Bool.and_self, if_true,
    Option.some.injEq, Prod.mk.injEq]
  exact ⟨by omega, trivial⟩

theorem getnum_render2 (fixed : Bool) (x : Int) (h0 : 0 ≤ x) (h : x < 100)
    (rest : List Char) :
    getnum fixed (digitChar (x / 10) :: digitChar (x % 10) :: rest) =
      some (x.toNat, rest) := by
  obtain ⟨i1, v1, -, -⟩ := digitChar_spec (x / 10) (by omega) (by omega)
  obtain ⟨i2, v2, -, -⟩ := digitChar_spec (x % 10) (by omega) (by omega)
  simp only [getnum, i1, i2, if_true, Option.some.injEq, Prod.mk.injEq]
  exact ⟨by omega, trivial⟩

theorem parseFrac3_render (x : Int) (h0 : 0 ≤ x) (h : x < 1000)
    (rest : List Char) :
    parseFrac3 ('.' :: digitChar (x / 100) :: digitChar (x / 10 % 10) ::
      digitChar (x % 10) :: rest) = some (x.toNat * 1000000, rest) := by
  obtain ⟨i1, v1, -, -⟩ := digitChar_spec (x / 100) (by omega) (by omega)
  obtain ⟨i2, v2, -, -⟩ := digitChar_spec (x / 10 % 10) (by omega) (by omega)
  obtain ⟨i3, v3, -, -⟩ := digitChar_spec (x % 10) (by omega) (by omega)
  simp only [parseFrac3, i1, i2, i3, Bool.and_self, Bool.and_true, if_true,
    Option.some.injEq, Prod.mk.injEq, decide_True, Bool.true_or,
    Bool.true_and]
  exact ⟨by omega, trivial⟩

theorem daysIn_le_31 (m y : Int) (h1 : 1 ≤ m) (h2 : m ≤ 12) :
    1 ≤ daysIn m y ∧ daysIn m y ≤ 31 := by
  unfold daysIn
  split
  · omega
  · interval_cases m <;> simp [daysBefore]

/-- Parsing the first layout (`ISO8601`) of the canonical rendering
succeeds and produces exactly `time.Date` of the rendered fields at offset
zero. -/
theorem parseLayout_render (y mo dy hh mi ss ms : Int)
    (hy : 0 ≤ y ∧ y ≤ 9999) (hmo : 1 ≤ mo ∧ mo ≤ 12)
    (hdy : 1 ≤ dy ∧ dy ≤ daysIn mo y)
    (hhh : 0 ≤ hh ∧ hh < 24) (hmi : 0 ≤ mi ∧ mi < 60)
    (hss : 0 ≤ ss ∧ ss < 60) (hms : 0 ≤ ms ∧ ms < 1000) :
    parseLayout ⟨true, true, true, true⟩
      (digitChar (y / 1000) :: digitChar (y / 100 % 10) ::
       digitChar (y / 10 % 10) :: digitChar (y % 10) :: '-' ::
       digitChar (mo / 10) :: digitChar (mo % 10) :: '-' ::
       digitChar (dy / 10) :: digitChar (dy % 10) :: 'T' ::
       digitChar (hh / 10) :: digitChar (hh % 10) :: ':' ::
       digitChar (mi / 10) :: digitChar (mi % 10) :: ':' ::
       digitChar (ss / 10) :: digitChar (ss % 10) :: '.' ::
       digitChar (ms / 100) :: digitChar (ms / 10 % 10) ::
       digitChar (ms % 10) :: ['Z']) =
      some (goDate y mo dy hh mi ss (ms * 1000000) 0) := by
  have hdy31 := daysIn_le_31 mo y hmo.1 hmo.2
  have g4 := getnum4_render y hy.1 (by omega)
  have gmo := getnum_render2 true mo (by omega) (by omega)
  have gdy := getnum_render2 true dy (by omega) (by omega)
  have ghh := getnum_render2 false hh (by omega) (by omega)
  have gmi := getnum_render2 true mi (by omega) (by omega)
  have gss := getnum_render2 true ss (by omega) (by omega)
  have gf3 := parseFrac3_render ms (by omega) (by omega)
  have hcy : ((y.toNat : Int)) = y := by omega
  have hcmo : ((mo.toNat : Int)) = mo := by omega
  have hcdy : ((dy.toNat : Int)) = dy := by omega
  have hchh : ((hh.toNat : Int)) = hh := by omega
  have hcmi : ((mi.toNat : Int)) = mi := by omega
  have hcss : ((ss.toNat : Int)) = ss := by omega
  have hcms : ((ms.toNat : Int)) = ms := by omega
  have hmsc : ((ms.toNat * 1000000 : Nat) : Int) = ms * 1000000 := by
    push_cast
    omega
  have hmonthguard : ¬(mo.toNat < 1 ∨ 12 < mo.toNat) := by omega
  have hdayguard : ¬(dy.toNat < 1 ∨
      daysIn ((mo.toNat : Int)) ((y.toNat : Int)) < ((dy.toNat : Int))) := by
    rw [hcmo, hcy, hcdy]
    omega
  have hz : parseZone ['Z'] = some ((0 : Int), ([] : List Char)) := rfl
  simp only [parseLayout, g4, gmo, gdy, ghh, gmi, gss, gf3, expectCh_cons,
    Option.bind_eq_bind, Option.some_bind]
  simp only [if_true, Option.pure_def, Option.some_bind]
  rw [if_neg (by omega : ¬24 ≤ hh.toNat)]
  rw [if_neg (by omega : ¬60 ≤ mi.toNat)]
  rw [if_neg (by omega : ¬60 ≤ ss.toNat)]
  simp only [Option.some_bind, hz]
  rw [if_neg (by simp : ¬(([] : List Char) ≠ []))]
  rw [if_neg (by (simp only [Bool.or_eq_true, decide_eq_true_eq]; exact hmonthguard))]
  rw [if_neg (by (simp only [Bool.or_eq_true, decide_eq_true_eq]; exact hdayguard))]
  simp only [Option.pure_def, Option.some.injEq]
  rw [hcy, hcmo, hcdy, hchh, hcmi, hcss, hmsc]

/-- With the year in range the clamping of `UTC.String` is inactive, and the
rendered characters are the canonical digits of the calendar fields. -/
theorem UTCString_eq (u : UTC) (h0 : 0 ≤ (u.Time.date).1)
    (h1 : (u.Time.date).1 ≤ 9999) :
    u.String = String.mk
      [digitChar ((u.Time.date).1 / 1000),
       digitChar ((u.Time.date).1 / 100 % 10),
       digitChar ((u.Time.date).1 / 10 % 10),
       digitChar ((u.Time.date).1 % 10), '-',
       digitChar ((u.Time.date).2.1 / 10), digitChar ((u.Time.date).2.1 % 10),
       '-',
       digitChar ((u.Time.date).2.2 / 10), digitChar ((u.Time.date).2.2 % 10),
       'T',
       digitChar ((u.Time.clock).1 / 10), digitChar ((u.Time.clock).1 % 10),
       ':',
       digitChar ((u.Time.clock).2.1 / 10),
       digitChar ((u.Time.clock).2.1 % 10), ':',
       digitChar ((u.Time.clock).2.2 / 10),
       digitChar ((u.Time.clock).2.2 % 10), '.',
       digitChar (u.Time.nsec / 1000000 / 100),
       digitChar (u.Time.nsec / 1000000 / 10 % 10),
       digitChar (u.Time.nsec / 1000000 % 10), 'Z'] := by
  simp only [UTC.String]
  rw [if_neg (by omega), if_neg (by omega)]

/-- The date projections of a `GoTime` are the `absDate` projections of its
absolute seconds. -/
theorem GoTime_date_eq (t : GoTime) :
    t.date = ((absDate t.abs).1, (absDate t.abs).2.1, (absDate t.abs).2.2.1) :=
  rfl

/-- The clock projections of a `GoTime` are `absClock` of its absolute
seconds. -/
theorem GoTime_clock_eq (t : GoTime) : t.clock = absClock t.abs := rfl

/-- The package invariant on `UTC` values: the embedded `Time` is
UTC-normalised (offset zero, no monotonic reading) and carries the same
instant as the retained `mono` field.  Every value the package constructs
satisfies it (see the invariants theorem below); only hand-assembled
struct literals can violate it. -/
def wfUTC (u : UTC) : Prop :=
  u.Time.off = 0 ∧ u.Time.monoR = none ∧ u.mono.wall = u.Time.wall

instance (u : UTC) : Decidable (wfUTC u) := by
  unfold wfUTC
  infer_instance

theorem jsonStringRest_clean (l : List Char)
    (h : ∀ c ∈ l, c ≠ '"' ∧ c ≠ '\\') :
    jsonStringRest (l ++ ['"']) = some l := by
  induction l with
  | nil => rfl
  | cons c rest ih =>
    have hc := h c (by simp)
    have hrest := ih (fun x hx => h x (by simp [hx]))
    cases rest with
    | nil =>
      simp only [List.cons_append, List.nil_append, jsonStringRest]
      rw [if_neg (by simp [hc.1, hc.2])]
      rfl
    | cons d tail =>
      simp only [List.cons_append, jsonStringRest]
      rw [if_neg (by simp [hc.1, hc.2])]
      simp only [List.cons_append] at hrest
      rw [hrest]
      rfl

/-- All characters of the canonical rendering are plain (neither a quote
nor a backslash), so the modelled JSON string decoding is the identity on
them. -/
theorem renderChars_clean (u : UTC) (hoff : u.Time.off = 0)
    (hlo : Min.Time.wall ≤ u.Time.wall) (hhi : u.Time.wall ≤ Max.Time.wall) :
    ∀ c ∈ (u.String).data, c ≠ '"' ∧ c ≠ '\\' := by
  obtain ⟨f1, f2, f3, f4, f5, f6, f7, f8, f9, f10, f11, f12, f13, f14, f15⟩ :=
    timeFields_spec u.Time hoff hlo hhi
  have hdy31 := daysIn_le_31 (absDate u.Time.abs).2.1 (absDate u.Time.abs).1
    f3 f4
  rw [UTCString_eq u f1 f2]
  simp only [GoTime_date_eq, GoTime_clock_eq]
  simp only [List.forall_mem_cons, List.mem_singleton, forall_eq]
  have hne : ∀ x : Int, 0 ≤ x → x < 10 →
      digitChar x ≠ '"' ∧ digitChar x ≠ '\\' :=
    fun x h0 h => ⟨(digitChar_spec x h0 h).2.2.1, (digitChar_spec x h0 h).2.2.2⟩
  and_intros <;>
    first
      | decide
      | (refine (hne _ ?_ ?_).1 <;> omega)
      | (refine (hne _ ?_ ?_).2 <;> omega)

/-- Parsing the canonical rendering of an in-range `UTC` value succeeds on
the first layout and produces the millisecond-truncated instant. -/
theorem FromString_String (u : UTC) (hoff : u.Time.off = 0)
    (hlo : Min.Time.wall ≤ u.Time.wall) (hhi : u.Time.wall ≤ Max.Time.wall) :
    FromString u.String =
      .ok (New (goDate (absDate u.Time.abs).1 (absDate u.Time.abs).2.1
        (absDate u.Time.abs).2.2.1 (absClock u.Time.abs).1
        (absClock u.Time.abs).2.1 (absClock u.Time.abs).2.2
        (u.Time.nsec / 1000000 * 1000000) 0)) := by
  obtain ⟨f1, f2, f3, f4, f5, f6, f7, f8, f9, f10, f11, f12, f13, f14, f15⟩ :=
    timeFields_spec u.Time hoff hlo hhi
  rw [UTCString_eq u f1 f2]
  simp only [GoTime_date_eq, GoTime_clock_eq]
  have hp := parseLayout_render (absDate u.Time.abs).1
    (absDate u.Time.abs).2.1 (absDate u.Time.abs).2.2.1
    (absClock u.Time.abs).1 (absClock u.Time.abs).2.1
    (absClock u.Time.abs).2.2 (u.Time.nsec / 1000000)
    ⟨f1, f2⟩ ⟨f3, f4⟩ ⟨f5, f6⟩ ⟨f7, f8⟩ ⟨f9, f10⟩ ⟨f11, f12⟩ (by omega)
  unfold FromString
  rw [if_neg (by intro hcontra; simpa using congrArg String.data hcontra)]
  simp only [formats, tryFormats, hp]
  rfl


/-! Helper definitions and lemmas for the claim theorems. -/

/-- The byte list `MarshalBinary` produces for the unsigned second count `s`
and nanosecond count `n` (5 + 4 big-endian bytes). -/
def binBytes (s n : Nat) : List Nat :=
  [s / 2 ^ 32 % 256, s / 2 ^ 24 % 256, s / 2 ^ 16 % 256, s / 2 ^ 8 % 256,
   s % 256, n / 2 ^ 24 % 256, n / 2 ^ 16 % 256, n / 2 ^ 8 % 256, n % 256]

/-- The millisecond-truncated instant the parser reconstructs from the
canonical rendering of `u`. -/
def canonicalMs (u : UTC) : UTC :=
  New (goDate (absDate u.Time.abs).1 (absDate u.Time.abs).2.1
    (absDate u.Time.abs).2.2.1 (absClock u.Time.abs).1 (absClock u.Time.abs).2.1
    (absClock u.Time.abs).2.2 (u.Time.nsec / 1000000 * 1000000) 0)

/-- A process state with a constant real clock and one unconfigured
wall-policy `TestClock`. -/
def sampleWorld : World :=
  { sys := fun _ => ⟨0, 0, 0⟩, tick := 0, nowFnIsClock := false,
    slot := none, tcs := fun _ => ⟨false, false, none, false⟩ }

/-- A process state in which `TestClock` 0 is the active global clock. -/
def mockWorld : World :=
  { sys := fun _ => ⟨0, 0, 0⟩, tick := 0, nowFnIsClock := true,
    slot := some (.test 0), tcs := fun _ => ⟨false, false, none, true⟩ }

/-- A process state whose real clock reads 1s, 2s, 3s, … on successive
samples, with one unset wall-policy `TestClock`. -/
def addWorld : World :=
  { sys := fun i => ⟨1000000000 * ((i : Int) + 1), 0, 7⟩, tick := 0,
    nowFnIsClock := false, slot := none,
    tcs := fun _ => ⟨false, false, none, false⟩ }

/-- When the receiver has no monotonic reading, the package's `Equal` is
wall-instant equality. -/
theorem GoTime_equal_of_wall (t u' : GoTime) (ht : t.monoR = none)
    (h : t.wall = u'.wall) : t.equal u' = true := by
  unfold GoTime.equal
  rw [ht]
  cases u'.monoR <;> simp [h]

/-- Every value `FromString` returns satisfies the package invariant. -/
theorem wf_FromString (s : GoStr) (u' : UTC) (h : FromString s = .ok u') :
    wfUTC u' := by
  unfold FromString at h
  split at h
  · injection h with h2
    subst h2
    exact ⟨rfl, rfl, rfl⟩
  · split at h
    · injection h with h2
      subst h2
      exact ⟨rfl, rfl, rfl⟩
    · simp at h

/-- Every receiver `UnmarshalText` assigns satisfies the package invariant. -/
theorem wf_UnmarshalText (u : UTC) (s : GoStr)
    (h : (u.UnmarshalText s).2 = none) : wfUTC (u.UnmarshalText s).1 := by
  cases hfs : FromString s with
  | error e =>
    simp only [UTC.UnmarshalText, hfs] at h
    simp at h
  | ok t =>
    have hw := wf_FromString s t hfs
    simp only [UTC.UnmarshalText, hfs]
    exact ⟨hw.1, hw.2.1, rfl⟩

/-- With the instant's year in `[0, 9999]` the validation passes. -/
theorem validate_none_of_range (u : UTC) (h0 : 0 ≤ (absDate u.Time.abs).1)
    (h1 : (absDate u.Time.abs).1 ≤ 9999) : u.ValidateISO8601 = none := by
  have hY : u.Year = (absDate u.Time.abs).1 := rfl
  unfold UTC.ValidateISO8601
  rw [if_neg]
  simp only [Bool.or_eq_true, decide_eq_true_eq]
  rintro (h | h) <;> (rw [hY] at h; omega)

/-- A value with a non-zero wall reading is not `IsZero`. -/
theorem isZero_false (u : UTC) (hz : u.Time.wall ≠ 0) : u.IsZero = false := by
  simp only [UTC.IsZero, GoTime.isZero]
  exact beq_eq_false_iff_ne.mpr hz

/-- Unfolding of `UnmarshalBinary` on a 9-byte literal. -/
theorem UnmarshalBinary_bytes (v : UTC) (b0 b1 b2 b3 b4 b5 b6 b7 b8 : Nat) :
    v.UnmarshalBinary [b0, b1, b2, b3, b4, b5, b6, b7, b8] =
      (let sec : Int := (b4 : Int) + (b3 : Int) * 2 ^ 8 + (b2 : Int) * 2 ^ 16 +
        (b1 : Int) * 2 ^ 24 + (b0 : Int) * 2 ^ 32
       let nsec : Int := (b8 : Int) + (b7 : Int) * 2 ^ 8 + (b6 : Int) * 2 ^ 16 +
        (b5 : Int) * 2 ^ 24
       let t := (goUnix (sec - yearZeroOffsetSec) nsec).utc
       ({ Time := t, mono := t }, none)) := rfl

/-- Decoding the bytes of an in-range second/nanosecond pair recovers the
instant. -/
theorem UnmarshalBinary_binBytes (v : UTC) (s n : Nat) (hs : s < 2 ^ 40)
    (hn : n < 2 ^ 32) :
    v.UnmarshalBinary (binBytes s n) =
      ({ Time := ⟨((s : Int) - 62167219200 + 62135596800) * 1000000000 +
                    (n : Int), 0, none⟩,
         mono := ⟨((s : Int) - 62167219200 + 62135596800) * 1000000000 +
                    (n : Int), 0, none⟩ }, none) := by
  simp only [binBytes]
  rw [UnmarshalBinary_bytes]
  simp only [goUnix, GoTime.utc, yearZeroOffsetSec, unixToInternal]
  have hsec : ((s % 256 : Nat) : Int) + ((s / 2 ^ 8 % 256 : Nat) : Int) * 2 ^ 8 +
      ((s / 2 ^ 16 % 256 : Nat) : Int) * 2 ^ 16 +
      ((s / 2 ^ 24 % 256 : Nat) : Int) * 2 ^ 24 +
      ((s / 2 ^ 32 % 256 : Nat) : Int) * 2 ^ 32 = (s : Int) := by omega
  have hnsec : ((n % 256 : Nat) : Int) + ((n / 2 ^ 8 % 256 : Nat) : Int) * 2 ^ 8 +
      ((n / 2 ^ 16 % 256 : Nat) : Int) * 2 ^ 16 +
      ((n / 2 ^ 24 % 256 : Nat) : Int) * 2 ^ 24 = (n : Int) := by omega
  rw [hsec, hnsec]

/-- Updating a `TestClock`'s state and reading it back. -/
theorem updTC_tcs_self (w : World) (id : Nat) (f : TCState → TCState) :
    (w.updTC id f).tcs id = f (w.tcs id) := by
  simp [World.updTC]


/-! The claim theorems. -/

/-- C1: For every `UTC` value in `[Min, Max]` satisfying the package
invariant, the binary round trip is the identity: `MarshalBinary` succeeds,
and `UnmarshalBinary` of its output (into any receiver) succeeds and yields
a value equal to the original — the package's `Equal`, since the decoder
cannot restore the monotonic reading the encoder never serialises — with
the wall instant reproduced exactly. -/
theorem C1_binary_roundtrip (u : UTC) (hwf : wfUTC u)
    (hlo : Min.Time.wall ≤ u.Time.wall) (hhi : u.Time.wall ≤ Max.Time.wall) :
    ∃ b, u.MarshalBinary = .ok b ∧
      ∀ v : UTC, ((v.UnmarshalBinary b).1).Equal u = true ∧
        (v.UnmarshalBinary b).2 = none ∧
        ((v.UnmarshalBinary b).1).Time.wall = u.Time.wall := by
  obtain ⟨hoff, hmonoR, hmw⟩ := hwf
  obtain ⟨f1, f2, -, -, -, -, -, -, -, -, -, -, -, -, -⟩ :=
    timeFields_spec u.Time hoff hlo hhi
  have hmin : Min.Time.wall = -31622400000000000 := by decide
  have hmax : Max.Time.wall = 315537897599999999999 := by decide
  rw [hmin] at hlo
  rw [hmax] at hhi
  by_cases hz : u.Time.wall = 0
  · refine ⟨[], ?_, ?_⟩
    · simp [UTC.MarshalBinary, UTC.IsZero, GoTime.isZero, hz]
    · intro v
      refine ⟨GoTime_equal_of_wall _ _ rfl ?_, rfl, ?_⟩
      · show (0 : Int) = u.Time.wall
        omega
      · show (0 : Int) = u.Time.wall
        omega
  · have hIsZ : u.IsZero = false := isZero_false u hz
    have hval : u.ValidateISO8601 = none := validate_none_of_range u f1 f2
    have hU : u.Unix = u.Time.wall / 1000000000 - 62135596800 := rfl
    have hN : u.Nanosecond = u.Time.wall % 1000000000 := rfl
    have hyz : yearZeroOffsetSec = 62167219200 := rfl
    have hsb : ((u.Unix + yearZeroOffsetSec) % 2 ^ 64).toNat < 2 ^ 40 := by
      rw [hU, hyz]
      omega
    have hnb : (u.Nanosecond % 2 ^ 32).toNat < 2 ^ 32 := by
      rw [hN]
      omega
    have hwall : ((((u.Unix + yearZeroOffsetSec) % 2 ^ 64).toNat : Int) -
        62167219200 + 62135596800) * 1000000000 +
        ((u.Nanosecond % 2 ^ 32).toNat : Int) = u.Time.wall := by
      rw [hU, hN, hyz]
      omega
    refine ⟨binBytes ((u.Unix + yearZeroOffsetSec) % 2 ^ 64).toNat
      ((u.Nanosecond % 2 ^ 32).toNat), ?_, ?_⟩
    · simp [UTC.MarshalBinary, hIsZ, hval, binBytes]
    · intro v
      have hw := UnmarshalBinary_binBytes v _ _ hsb hnb
      rw [hw]
      exact ⟨GoTime_equal_of_wall _ _ rfl hwall, rfl, hwall⟩

/-- C1 witness: the binary round trip at a concrete instant. -/
theorem C1_binary_roundtrip_witness :
    ∃ b, (New (goDate 2001 9 9 1 46 40 123456789 0)).MarshalBinary = .ok b ∧
      ∀ v : UTC,
        ((v.UnmarshalBinary b).1).Equal
          (New (goDate 2001 9 9 1 46 40 123456789 0)) = true ∧
        (v.UnmarshalBinary b).2 = none ∧
        ((v.UnmarshalBinary b).1).Time.wall =
          (New (goDate 2001 9 9 1 46 40 123456789 0)).Time.wall :=
  C1_binary_roundtrip (New (goDate 2001 9 9 1 46 40 123456789 0))
    (by decide) (by decide) (by decide)

/-- C2: For every `UTC` value in `[Min, Max]` satisfying the package
invariant, parsing the text rendering yields the value truncated to the
millisecond (`FromString (u.String) = ok r` with
`r.Equal (u.Truncate 1000000)`), and the same holds through the JSON codec
(`MarshalJSON` then `UnmarshalJSON` into any receiver). -/
theorem C2_text_json_roundtrip (u : UTC) (hwf : wfUTC u)
    (hlo : Min.Time.wall ≤ u.Time.wall) (hhi : u.Time.wall ≤ Max.Time.wall) :
    (∃ r, FromString u.String = .ok r ∧ r.Equal (u.Truncate 1000000) = true) ∧
    ∃ j, u.MarshalJSON = .ok j ∧
      ∀ v : UTC, (v.UnmarshalJSON j).2 = none ∧
        ((v.UnmarshalJSON j).1).Equal (u.Truncate 1000000) = true := by
  obtain ⟨hoff, hmonoR, hmw⟩ := hwf
  obtain ⟨f1, f2, -, -, -, -, -, -, -, -, -, -, -, -, f15⟩ :=
    timeFields_spec u.Time hoff hlo hhi
  have hfs : FromString u.String = .ok (canonicalMs u) :=
    FromString_String u hoff hlo hhi
  have hEQwall : ((canonicalMs u).Time).wall = ((u.Truncate 1000000).Time).wall := by
    show (goDate (absDate u.Time.abs).1 (absDate u.Time.abs).2.1
      (absDate u.Time.abs).2.2.1 (absClock u.Time.abs).1
      (absClock u.Time.abs).2.1 (absClock u.Time.abs).2.2
      (u.Time.nsec / 1000000 * 1000000) 0).wall =
      ((u.Truncate 1000000).Time).wall
    rw [f15]
    show u.Time.wall - u.Time.wall % 1000000 =
      u.mono.wall - u.mono.wall % 1000000
    rw [hmw]
  refine ⟨⟨canonicalMs u, hfs, GoTime_equal_of_wall _ _ rfl hEQwall⟩, ?_⟩
  by_cases hz : u.Time.wall = 0
  · refine ⟨"\"\"", ?_, ?_⟩
    · simp [UTC.MarshalJSON, UTC.IsZero, GoTime.isZero, hz]
    · intro v
      have hq : jsonUnquote "\"\"" = some "" := by decide
      have hfs0 : FromString "" = Except.ok Zero := by decide
      have hvz : v.UnmarshalJSON "\"\"" =
          ({ Time := Zero.Time, mono := Zero.Time }, none) := by
        simp only [UTC.UnmarshalJSON, hq, UTC.UnmarshalText, hfs0]
      rw [hvz]
      refine ⟨rfl, GoTime_equal_of_wall _ _ rfl ?_⟩
      show (0 : Int) = u.mono.wall - u.mono.wall % 1000000
      omega
  · have hIsZ : u.IsZero = false := isZero_false u hz
    have hval : u.ValidateISO8601 = none := validate_none_of_range u f1 f2
    have hmj : u.MarshalJSON = .ok ("\"" ++ u.String ++ "\"") := by
      simp [UTC.MarshalJSON, hIsZ, hval]
    refine ⟨"\"" ++ u.String ++ "\"", hmj, ?_⟩
    intro v
    have hdata : ("\"" ++ u.String ++ "\"").data =
        '"' :: (u.String.data ++ ['"']) := by
      rw [String.data_append, String.data_append]
      rfl
    have hjq : jsonUnquote ("\"" ++ u.String ++ "\"") = some u.String := by
      simp only [jsonUnquote, hdata]
      rw [jsonStringRest_clean u.String.data (renderChars_clean u hoff hlo hhi)]
      rfl
    have hun : v.UnmarshalJSON ("\"" ++ u.String ++ "\"") =
        ({ Time := (canonicalMs u).Time, mono := (canonicalMs u).Time },
          none) := by
      simp only [UTC.UnmarshalJSON, hjq, UTC.UnmarshalText, hfs]
    rw [hun]
    exact ⟨rfl, GoTime_equal_of_wall _ _ rfl hEQwall⟩

/-- C2 witness: the text and JSON round trips at a concrete instant. -/
theorem C2_text_json_roundtrip_witness :
    (∃ r, FromString (New (goDate 2001 9 9 1 46 40 123456789 0)).String = .ok r ∧
      r.Equal ((New (goDate 2001 9 9 1 46 40 123456789 0)).Truncate 1000000) =
        true) ∧
    ∃ j, (New (goDate 2001 9 9 1 46 40 123456789 0)).MarshalJSON = .ok j ∧
      ∀ v : UTC, (v.UnmarshalJSON j).2 = none ∧
        ((v.UnmarshalJSON j).1).Equal
          ((New (goDate 2001 9 9 1 46 40 123456789 0)).Truncate 1000000) =
          true :=
  C2_text_json_roundtrip (New (goDate 2001 9 9 1 46 40 123456789 0))
    (by decide) (by decide) (by decide)


/-- C3: Installing a `TestClock` via `MockNow` makes the global `Now` return
what that clock's `Now` returns; after deregistration (`UnmockNow`, which
calls `ResetNow`), the global `Now` again reads the real system clock, and —
when the real clock is monotone — returns a value no earlier than a sample
taken just before deregistration. -/
theorem C3_mock_unmock (w : World) (id : Nat)
    (hm : ∀ i j : Nat, i ≤ j → (w.sys i).wall ≤ (w.sys j).wall) :
    Now (TestClock.MockNow id w) = TestClock.Now id (TestClock.MockNow id w) ∧
    Now (TestClock.UnmockNow id w) = nowDefault (TestClock.UnmockNow id w) ∧
    ((sysNow w).1).wall ≤
      ((Now (TestClock.UnmockNow id (sysNow w).2)).1).Time.wall := by
  obtain ⟨sys, tick, nfc, slot, tcs⟩ := w
  refine ⟨?_, ?_, ?_⟩
  · rcases slot with _ | c
    · rfl
    · cases c <;> rfl
  · rcases slot with _ | c
    · rfl
    · cases c <;> rfl
  · have h := hm tick (tick + 1) (Nat.le_succ tick)
    rcases slot with _ | c
    · exact h
    · cases c <;> exact h

/-- C3 witness: the dispatch equations and the monotonicity bound at a
concrete process state. -/
theorem C3_mock_unmock_witness :
    Now (TestClock.MockNow 0 sampleWorld) =
      TestClock.Now 0 (TestClock.MockNow 0 sampleWorld) ∧
    Now (TestClock.UnmockNow 0 sampleWorld) =
      nowDefault (TestClock.UnmockNow 0 sampleWorld) ∧
    ((sysNow sampleWorld).1).wall ≤
      ((Now (TestClock.UnmockNow 0 (sysNow sampleWorld).2)).1).Time.wall :=
  C3_mock_unmock sampleWorld 0 (fun _ _ _ => le_refl (0 : Int))

/-- C4: If `TestClock` `a` is the active global clock and `TestClock` `b` is
then installed via `MockNow`, `a`'s `IsMock` becomes false (it is notified
through `unMocked`) and `b`'s `IsMock` becomes true, although `a` was never
explicitly deregistered. -/
theorem C4_supersede (w : World) (a b : Nat) (hab : a ≠ b)
    (hslot : w.slot = some (.test a)) :
    TestClock.IsMock a (TestClock.MockNow b w) = false ∧
    TestClock.IsMock b (TestClock.MockNow b w) = true := by
  simp only [TestClock.IsMock, TestClock.MockNow, setClock, allowClock,
    getClock, hslot, Option.getD, World.updTC]
  simp [hab]

/-- C4 witness: clock 1 supersedes the active clock 0. -/
theorem C4_supersede_witness :
    TestClock.IsMock 0 (TestClock.MockNow 1 mockWorld) = false ∧
    TestClock.IsMock 1 (TestClock.MockNow 1 mockWorld) = true :=
  C4_supersede mockWorld 0 1 (by decide) rfl

/-- C5: A `TestClock`'s `Now` returns the recorded instant unless none is
recorded or the recorded instant is `Zero`, in which case the policy clock
is read; `Set` stores the policy-filtered instant (strip the measurement
reading under the wall policy, additionally round to the millisecond under
the millisecond policy, store unchanged under the mono policy) and returns
the previously recorded instant (`Zero` if none); `Unset` is `Set Zero`,
and setting `Zero` leaves the clock unset. -/
theorem C5_testclock_now_set (w : World) (id : Nat) (u : UTC) :
    TestClock.Now id w =
      (if TestClock.Get id w = Zero then (w.tcs id).wc w
       else (TestClock.Get id w, w)) ∧
    (TestClock.Set id u w).1 = TestClock.Get id w ∧
    ((TestClock.Set id u w).2.tcs id).now =
      (if u = Zero then none
       else some (if (w.tcs id).mono then u
                  else if (w.tcs id).millisPrecision then
                    (u.StripMono).Round 1000000
                  else u.StripMono)) ∧
    TestClock.Unset id w = TestClock.Set id Zero w := by
  refine ⟨?_, ?_, ?_, rfl⟩
  · cases hnow : (w.tcs id).now with
    | none => simp [TestClock.Now, TestClock.Get, hnow]
    | some n => simp [TestClock.Now, TestClock.Get, hnow]
  · cases hnow : (w.tcs id).now <;>
      simp [TestClock.Set, TCState.set, TestClock.Get, hnow]
  · by_cases hu : u = Zero
    · simp [TestClock.Set, World.updTC, TCState.set, hu]
    · cases hmc : (w.tcs id).mono <;>
        simp [TestClock.Set, World.updTC, TCState.set, hu, hmc]

/-- C6 counterexample: a wall-policy `TestClock` that was never set, on a
real clock reading 1s, 2s, … — `Add (-1s)` computes exactly the zero
instant, so `Set` unsets the clock instead of pinning it: the recorded
instant stays absent and the next `Now` still tracks the real clock
(returning the fresh 2s sample), contradicting "if previously unset, the
clock is thereafter pinned to that value". -/
theorem C6_add_counterexample :
    (addWorld.tcs 0).now = none ∧
    (TestClock.Add 0 (-1000000000) addWorld).1 = Zero ∧
    ((TestClock.Add 0 (-1000000000) addWorld).2.tcs 0).now = none ∧
    (TestClock.Now 0 (TestClock.Add 0 (-1000000000) addWorld).2).1 =
      New ⟨2000000000, 0, none⟩ := by decide

/-- C6 (amended): `Add` reads `Now`, adds the duration, stores the result
through `Set` and returns it; the clock is pinned afterwards only when the
stored (policy-filtered) instant is present and non-`Zero` — when the
computed value is exactly `Zero`, `Set` unsets the clock, which then keeps
tracking the real clock. -/
theorem C6_add_amended (w : World) (id : Nat) (d : Int) :
    (TestClock.Add id d w).1 = ((TestClock.Now id w).1).Add d ∧
    (TestClock.Add id d w).2 =
      (TestClock.Set id (((TestClock.Now id w).1).Add d)
        (TestClock.Now id w).2).2 ∧
    ((TestClock.Add id d w).1 = Zero →
      (((TestClock.Add id d w).2).tcs id).now = none) ∧
    (∀ n : UTC, (((TestClock.Add id d w).2).tcs id).now = some n → n ≠ Zero →
      TestClock.Now id ((TestClock.Add id d w).2) =
        (n, (TestClock.Add id d w).2)) := by
  refine ⟨rfl, rfl, ?_, ?_⟩
  · intro hz
    have hz' : ((TestClock.Now id w).1).Add d = Zero := hz
    have h2 : (TestClock.Add id d w).2 =
        ((TestClock.Now id w).2).updTC id
          (fun c => (c.set (((TestClock.Now id w).1).Add d)).2) := rfl
    rw [h2, updTC_tcs_self]
    simp only [TCState.set]
    rw [if_pos hz']
  · intro n hsome hne
    simp only [TestClock.Now, hsome]
    rw [if_neg hne]

/-- C6 witness: a non-cancelling `Add` on the unset wall-policy clock does
pin it to the stored instant. -/
theorem C6_add_amended_witness :
    (((TestClock.Add 0 1000000000 addWorld).2).tcs 0).now =
      some (New ⟨2000000000, 0, none⟩) ∧
    TestClock.Now 0 ((TestClock.Add 0 1000000000 addWorld).2) =
      (New ⟨2000000000, 0, none⟩, (TestClock.Add 0 1000000000 addWorld).2) :=
  ⟨by decide, (C6_add_amended addWorld 0 1000000000).2.2.2
    (New ⟨2000000000, 0, none⟩) (by decide) (by decide)⟩


/-- C7: For a UTC-normalised value, `ValidateISO8601` fails exactly when the
calendar year is below 0 or above 9999, and marshalling such a value to
text, JSON or binary fails with an error (the model's `Except.error` carries
no output, matching the Go `nil, err` returns). -/
theorem C7_validate_marshal (u : UTC) (hoff : u.Time.off = 0) :
    (u.ValidateISO8601.isSome = true ↔ (u.Year < 0 ∨ 9999 < u.Year)) ∧
    (u.ValidateISO8601.isSome = true →
      (∃ e, u.MarshalText = .error e) ∧ (∃ e, u.MarshalJSON = .error e) ∧
      (∃ e, u.MarshalBinary = .error e)) := by
  have hiff : u.ValidateISO8601.isSome = true ↔
      (u.Year < 0 ∨ 9999 < u.Year) := by
    constructor
    · intro hs
      by_contra hc
      push_neg at hc
      unfold UTC.ValidateISO8601 at hs
      rw [if_neg] at hs
      · simp at hs
      · simp only [Bool.or_eq_true, decide_eq_true_eq]
        rintro (h | h) <;> omega
    · intro h
      unfold UTC.ValidateISO8601
      rw [if_pos]
      · rfl
      · simp only [Bool.or_eq_true, decide_eq_true_eq]
        rcases h with h | h
        · exact Or.inl h
        · exact Or.inr (by omega)
  refine ⟨hiff, fun hs => ?_⟩
  have hyr := hiff.mp hs
  have hz : u.Time.wall ≠ 0 := by
    intro hw
    have habs : u.Time.abs = internalEpochAbsSec := by
      simp [GoTime.abs, GoTime.sec, hoff, hw]
    have hy1 : u.Year = 1 := by
      show (absDate u.Time.abs).1 = 1
      rw [habs]
      decide
    rcases hyr with h | h <;> omega
  have hIsZ : u.IsZero = false := isZero_false u hz
  obtain ⟨e, he⟩ : ∃ e, u.ValidateISO8601 = some e := by
    cases hv : u.ValidateISO8601 with
    | none => rw [hv] at hs; simp at hs
    | some e => exact ⟨e, rfl⟩
  refine ⟨⟨e, ?_⟩, ⟨e, ?_⟩, ⟨e, ?_⟩⟩
  · simp [UTC.MarshalText, hIsZ, he]
  · simp [UTC.MarshalJSON, hIsZ, he]
  · simp [UTC.MarshalBinary, hIsZ, he]

/-- C7 witness: the year-10000 instant fails validation and text
marshalling. -/
theorem C7_validate_marshal_witness :
    ((New (goDate 10000 1 1 0 0 0 0 0)).ValidateISO8601.isSome = true ↔
      ((New (goDate 10000 1 1 0 0 0 0 0)).Year < 0 ∨
        9999 < (New (goDate 10000 1 1 0 0 0 0 0)).Year)) ∧
    (∃ e, (New (goDate 10000 1 1 0 0 0 0 0)).MarshalText = .error e) :=
  ⟨(C7_validate_marshal (New (goDate 10000 1 1 0 0 0 0 0)) (by decide)).1,
    ((C7_validate_marshal (New (goDate 10000 1 1 0 0 0 0 0)) (by decide)).2
      (by decide)).1⟩

/-- C8: `Zero` marshals to the empty string in text, to `""` in JSON and to
an empty payload in binary; unmarshalling the empty string (text/JSON) or
the empty payload (binary) into any receiver yields `Zero`. -/
theorem C8_zero_codec :
    Zero.MarshalText = .ok "" ∧ Zero.MarshalJSON = .ok "\"\"" ∧
    Zero.MarshalBinary = .ok ([] : List Nat) ∧
    ∀ u : UTC, u.UnmarshalText "" = (Zero, none) ∧
      u.UnmarshalJSON "\"\"" = (Zero, none) ∧
      u.UnmarshalBinary [] = (Zero, none) := by
  have hfs0 : FromString "" = Except.ok Zero := by decide
  have hq : jsonUnquote "\"\"" = some "" := by decide
  have h1 : Zero.MarshalText = Except.ok "" := by decide
  have h2 : Zero.MarshalJSON = Except.ok "\"\"" := by decide
  have h3 : Zero.MarshalBinary = Except.ok ([] : List Nat) := by decide
  refine ⟨h1, h2, h3, fun u => ⟨?_, ?_, rfl⟩⟩
  · simp only [UTC.UnmarshalText, hfs0]
    rfl
  · simp only [UTC.UnmarshalJSON, hq, UTC.UnmarshalText, hfs0]
    rfl

/-- C9: Every value the package constructs (`New`, `Unix`, `UnixMilli`, the
default `now`, `FromString`, successful unmarshalling) is UTC-normalised
(offset zero, no monotonic reading in the embedded `Time`, and the retained
measurement carries the same wall instant); `Add`, `Truncate`, `Round` and
`StripMono` keep the offset zero; and the arithmetic operations delegate to
the retained measurement reading `mono` — in particular `Sub` of two values
carrying monotonic readings depends only on those readings, not on the wall
fields. -/
theorem C9_invariants :
    (∀ t, wfUTC (New t)) ∧
    (∀ sec nsec, wfUTC (Unix sec nsec)) ∧
    (∀ millis, wfUTC (UnixMilli millis)) ∧
    (∀ w, wfUTC (nowDefault w).1) ∧
    (∀ s u', FromString s = .ok u' → wfUTC u') ∧
    (∀ (u : UTC) (s : GoStr), (u.UnmarshalText s).2 = none →
      wfUTC (u.UnmarshalText s).1) ∧
    (∀ (u : UTC) (s : GoStr), (u.UnmarshalJSON s).2 = none →
      wfUTC (u.UnmarshalJSON s).1) ∧
    (∀ (u : UTC) (b : List Nat), (u.UnmarshalBinary b).2 = none →
      wfUTC (u.UnmarshalBinary b).1) ∧
    (∀ (u : UTC) (d : Int), (u.Add d).Time.off = 0 ∧
      (u.Truncate d).Time.off = 0 ∧ (u.Round d).Time.off = 0 ∧
      u.StripMono.Time.off = 0) ∧
    (∀ (u : UTC) (d : Int), u.Add d = New (u.mono.add d) ∧
      u.Truncate d = New (u.mono.truncate d) ∧
      u.Round d = New (u.mono.round d)) ∧
    (∀ u v : UTC, u.Sub v = u.mono.sub v.mono ∧
      u.After v = u.mono.after v.mono ∧ u.Before v = u.mono.before v.mono) ∧
    (∀ (T1 T2 : GoTime) (w1 w2 o1 o2 r1 r2 : Int),
      ({ Time := T1, mono := ⟨w1, o1, some r1⟩ } : UTC).Sub
        { Time := T2, mono := ⟨w2, o2, some r2⟩ } = r1 - r2) := by
  refine ⟨fun t => ⟨rfl, rfl, rfl⟩, fun sec nsec => ⟨rfl, rfl, rfl⟩,
    fun millis => ⟨rfl, rfl, rfl⟩, fun w => ⟨rfl, rfl, rfl⟩,
    fun s u' h => wf_FromString s u' h, fun u s h => wf_UnmarshalText u s h,
    ?_, ?_, fun u d => ⟨rfl, rfl, rfl, rfl⟩, fun u d => ⟨rfl, rfl, rfl⟩,
    fun u v => ⟨rfl, rfl, rfl⟩, fun T1 T2 w1 w2 o1 o2 r1 r2 => rfl⟩
  · intro u s h
    cases hjq : jsonUnquote s with
    | none =>
      simp only [UTC.UnmarshalJSON, hjq] at h
      simp at h
    | some s2 =>
      simp only [UTC.UnmarshalJSON, hjq] at h ⊢
      exact wf_UnmarshalText u s2 h
  · intro u b h
    unfold UTC.UnmarshalBinary at h ⊢
    split at h
    · exact ⟨rfl, rfl, rfl⟩
    · exact ⟨rfl, rfl, rfl⟩
    · simp at h

/-- C9 witness: the invariant at a successfully unmarshalled receiver and at
a constructed value. -/
theorem C9_invariants_witness :
    wfUTC ((Zero.UnmarshalText "2001-09-09").1) ∧
    wfUTC (New (goDate 2001 9 9 1 46 40 0 0)) :=
  ⟨C9_invariants.2.2.2.2.2.1 Zero "2001-09-09" (by decide),
    C9_invariants.1 (goDate 2001 9 9 1 46 40 0 0)⟩

/-- C10: When `UnmarshalText` or `UnmarshalJSON` fails, the receiver is left
completely unchanged (the Go code returns the error before assigning any
field). -/
theorem C10_error_preserves_receiver (u : UTC) (s : GoStr) :
    ((u.UnmarshalText s).2.isSome = true → (u.UnmarshalText s).1 = u) ∧
    ((u.UnmarshalJSON s).2.isSome = true → (u.UnmarshalJSON s).1 = u) := by
  have htext : ∀ s' : GoStr, (u.UnmarshalText s').2.isSome = true →
      (u.UnmarshalText s').1 = u := by
    intro s' h
    cases hfs : FromString s' with
    | error e => simp only [UTC.UnmarshalText, hfs]
    | ok t =>
      simp only [UTC.UnmarshalText, hfs] at h
      simp at h
  refine ⟨htext s, ?_⟩
  intro h
  cases hjq : jsonUnquote s with
  | none => simp only [UTC.UnmarshalJSON, hjq]
  | some s2 =>
    simp only [UTC.UnmarshalJSON, hjq] at h ⊢
    exact htext s2 h

/-- C10 witness: a failing parse leaves the concrete receiver `Max`
unchanged for both codecs. -/
theorem C10_error_witness :
    (Max.UnmarshalText "blub").1 = Max ∧ (Max.UnmarshalJSON "blub").1 = Max :=
  ⟨(C10_error_preserves_receiver Max "blub").1 (by decide),
    (C10_error_preserves_receiver Max "blub").2 (by decide)⟩

end Utc
